import Mathlib

/-!
The SSE timestamp server of `sse/main.go`.

A shallow embedding of the two functions of the program, `main` and
`sseHandler`, together with the small part of Go's standard library they call
(`fmt`, `net/http`, `time`), followed by the properties proved about them.

The response sink (`http.ResponseWriter`), the clock and the connection are the
environment of the handler.  They are modelled by explicit state passing:

* `Env` supplies what the handler cannot control: the text of each clock
  reading and whether each `Write` call on the connection succeeds;
* `World` is the state of one response: capability, header map, status, body
  and the trace of calls the handler made on the sink;
* the unbounded `for` loop is unrolled a given number of iterations; the
  handler's outcome records whether it has returned or is still looping.
-/

namespace SSE

/-! ## `fmt` -/

/-- Operands left over once the format is exhausted, as `fmt` reports them. -/
def sprintfExtra (args : List String) : List Char :=
  "%!(EXTRA ".data ++ (", ".data).intercalate (args.map fun a => "string=".data ++ a.data)
    ++ ")".data

/-- Go's `fmt.Sprintf` on a format whose only verb is `%s`, with string
operands: every `%s` is replaced by the next operand, every other character is
copied, a `%s` without operand prints `%!s(MISSING)`. -/
def sprintf : List Char → List String → List Char
  | [], [] => []
  | [], a :: args => sprintfExtra (a :: args)
  | '%' :: 's' :: rest, a :: args => a.data ++ sprintf rest args
  | '%' :: 's' :: rest, [] => "%!s(MISSING)".data ++ sprintf rest []
  | c :: rest, args => c :: sprintf rest args

/-- Go's `fmt.Sprintln` on string operands: the operands separated by single
spaces, followed by a newline. -/
def sprintln (args : List String) : String :=
  " ".intercalate args ++ "\n"

/-! ## `time` -/

/-- The constant `time.Second`, in nanoseconds. -/
def Second : Nat := 1000000000

/-! ## `net/http`: the response sink -/

/-- The constant `http.StatusOK`. -/
def StatusOK : Nat := 200

/-- The constant `http.StatusBadRequest`. -/
def StatusBadRequest : Nat := 400

/-- The constant `http.StatusNotFound`. -/
def StatusNotFound : Nat := 404

/-- The constant `http.StatusInternalServerError`. -/
def StatusInternalServerError : Nat := 500

/-- The header map of a response: keys with their value. -/
abbrev Header := List (String × String)

/-- The method `Header.Set`: the entry of `key` is replaced by `value`.  The
keys used by this program are already in canonical MIME form. -/
def Header.Set (h : Header) (key value : String) : Header :=
  h.filter (fun kv => kv.1 != key) ++ [(key, value)]

/-- The method `Header.Get`. -/
def Header.Get (h : Header) (key : String) : Option String :=
  (h.find? fun kv => kv.1 == key).map Prod.snd

/-- One call made on the response sink, or a suspension of the handler. -/
inductive Effect where
  | setHeader (key value : String)
  | writeHeader (code : Nat)
  | write (bytes : String)
  | flush
  | sleep (ns : Nat)
  deriving DecidableEq, Repr

/-- What the handler does not control: `now i` is the text `time.Now().String()`
returns at the `i`-th reading of the clock, and `writeOk i` tells whether the
`i`-th `Write` call on the connection succeeds (it fails once the client has
closed the connection or the network has failed). -/
structure Env where
  now : Nat → String
  writeOk : Nat → Bool

/-- A request: the fields a client controls.  `escapedPath` is the path of the
request URL with its percent-escapes, as `r.URL.EscapedPath()` returns it: the
form the multiplexer reads.  `query` is the raw query.  The request target `*`
has the path `*`. -/
structure Request where
  method : String
  escapedPath : String
  query : String
  header : Header
  body : String
  protoMajor : Nat
  protoMinor : Nat
  deriving DecidableEq, Repr

/-- The method `Request.ProtoAtLeast`. -/
def Request.ProtoAtLeast (r : Request) (major minor : Nat) : Bool :=
  r.protoMajor > major || (r.protoMajor == major && r.protoMinor ≥ minor)

/-- The value of a hexadecimal digit: the function `unhex` of `net/url`. -/
def unhex (c : Char) : Option Nat :=
  if 48 ≤ c.toNat ∧ c.toNat ≤ 57 then some (c.toNat - 48)
  else if 97 ≤ c.toNat ∧ c.toNat ≤ 102 then some (c.toNat - 97 + 10)
  else if 65 ≤ c.toNat ∧ c.toNat ≤ 70 then some (c.toNat - 65 + 10)
  else none

/-- The text with every escape `%XY` replaced by the byte it stands for, as
`url.PathUnescape` computes it; `none` when a `%` is not followed by two
hexadecimal digits.  A byte is represented by the character with its code. -/
def decodeEscapes : List Char → Option (List Char)
  | [] => some []
  | c :: t =>
    if c = '%' then
      match t with
      | a :: b :: t' =>
        match unhex a, unhex b, decodeEscapes t' with
        | some x, some y, some d => some (Char.ofNat (16 * x + y) :: d)
        | _, _, _ => none
      | _ => none
    else
      match decodeEscapes t with
      | some d => some (c :: d)
      | none => none

/-- The function `pathUnescape` of `net/http`: the text unescaped, or the text
itself when an escape in it is invalid. -/
def pathUnescape (p : List Char) : List Char :=
  (decodeEscapes p).getD p

/-- The field `r.URL.Path`: the path of the request URL, unescaped. -/
def Request.path (r : Request) : String :=
  String.mk (pathUnescape r.escapedPath.data)

/-- The request targets the server hands to a handler: `*`, the empty path of a
`CONNECT` to an authority, or a path that starts with a slash. -/
def Request.WellFormed (r : Request) : Prop :=
  r.escapedPath = "*" ∨ r.escapedPath = "" ∨ r.escapedPath.data.head? = some '/'

/-- What differs between releases of Go's library, or is not needed in detail.
`redirectCode` is the status the multiplexer gives to its redirect to a cleaned
path (301 in earlier releases of Go, 307 in current ones); `urlString p q` is
the text of the URL with path `p` and raw query `q`, the method `URL.String`;
`resolveURL r u` is `u` made absolute against the path of `r` and cleaned, as
`http.Redirect` starts by doing; `hexEscapeNonASCII`, `htmlEscape` and
`StatusText` are the functions of `net/http` of these names. -/
structure Library where
  redirectCode : Nat
  urlString : String → String → String
  resolveURL : Request → String → String
  hexEscapeNonASCII : String → String
  htmlEscape : String → String
  StatusText : Nat → String

/-- The state of one response.  `flusher` tells whether the sink implements
`http.Flusher`; `status` is `none` until the status line is written; `body`
holds the bytes the connection accepted; `trace` lists the calls made so far,
oldest first; `reads` and `writes` count the clock readings and `Write` calls. -/
structure World where
  flusher : Bool
  header : Header
  status : Option Nat
  body : String
  trace : List Effect
  reads : Nat
  writes : Nat
  deriving DecidableEq, Repr

/-- A fresh response, as the server hands it to a handler. -/
def World.fresh (flusher : Bool) : World :=
  ⟨flusher, [], none, "", [], 0, 0⟩

/-- The call `w.Header().Set(key, value)`. -/
def World.SetHeader (s : World) (key value : String) : World :=
  { s with header := s.header.Set key value, trace := s.trace ++ [.setHeader key value] }

/-- The method `ResponseWriter.WriteHeader`: the status is fixed by the first call. -/
def World.WriteHeader (s : World) (code : Nat) : World :=
  { s with status := some (s.status.getD code), trace := s.trace ++ [.writeHeader code] }

/-- The method `ResponseWriter.Write`: the first write fixes the status to 200
when none was written; the bytes reach the body when the connection accepts
them.  The second component is the error result (`true` for a non-nil error). -/
def World.Write (env : Env) (s : World) (bytes : String) : World × Bool :=
  ({ s with
      status := some (s.status.getD StatusOK),
      body := if env.writeOk s.writes then s.body ++ bytes else s.body,
      trace := s.trace ++ [.write bytes],
      writes := s.writes + 1 },
   !env.writeOk s.writes)

/-- The method `Flusher.Flush`; it has no result. -/
def World.Flush (s : World) : World :=
  { s with trace := s.trace ++ [.flush] }

/-- The call `time.Sleep(d)`. -/
def World.Sleep (s : World) (d : Nat) : World :=
  { s with trace := s.trace ++ [.sleep d] }

/-- The call `time.Now().String()`: the next reading of the clock. -/
def World.Now (env : Env) (s : World) : String × World :=
  (env.now s.reads, { s with reads := s.reads + 1 })

/-- The call `fmt.Fprintf(w, format, args...)`: one `Write` of the formatted text. -/
def Fprintf (env : Env) (s : World) (format : String) (args : List String) : World × Bool :=
  s.Write env (String.mk (sprintf format.data args))

/-- The call `fmt.Fprintln(w, args...)`. -/
def Fprintln (env : Env) (s : World) (args : List String) : World × Bool :=
  s.Write env (sprintln args)

/-- The function `http.Error`: a plain-text reply with the given status. -/
def Error (env : Env) (s : World) (error : String) (code : Nat) : World :=
  let s := s.SetHeader "Content-Type" "text/plain; charset=utf-8"
  let s := s.SetHeader "X-Content-Type-Options" "nosniff"
  let s := s.WriteHeader code
  (Fprintln env s [error]).1

/-! ## `sseHandler` -/

/-- How far a handler got: it returned, or it is still inside its loop after
the iterations it was given. -/
inductive Outcome where
  | returned (s : World)
  | running (s : World)
  deriving DecidableEq, Repr

/-- The final or current state of the response. -/
def Outcome.world : Outcome → World
  | .returned s => s
  | .running s => s

/-- One iteration of the `for` loop of `sseHandler`: the results of `Fprintf`
are discarded, as in the source. -/
def loopBody (env : Env) (s : World) : World :=
  let (t, s) := s.Now env
  let (s, _) := Fprintf env s "data: %s\n\n" [t]
  let s := s.Flush
  s.Sleep (2 * Second)

/-- The `for` loop of `sseHandler`, which has no exit, run `n` iterations. -/
def forLoop (env : Env) : Nat → World → World
  | 0, s => s
  | n + 1, s => forLoop env n (loopBody env s)

/-- The function `sseHandler(w, r)`, its loop run `fuel` iterations. -/
def sseHandler (env : Env) (s : World) (_r : Request) (fuel : Nat) : Outcome :=
  if !s.flusher then
    .returned (Error env s "Streaming unsupported!" StatusInternalServerError)
  else
    let s := s.SetHeader "Content-Type" "text/event-stream"
    let s := s.SetHeader "Cache-Control" "no-cache"
    let s := s.SetHeader "Connection" "keep-alive"
    let s := s.SetHeader "Access-Control-Allow-Origin" "*"
    let s := s.SetHeader "Access-Control-Allow-Headers" "Content-Type"
    .running (forLoop env fuel s)

/-- The calls `sseHandler` itself made: the trace without what was there
before the handler was invoked. -/
def handlerTrace (env : Env) (s : World) (r : Request) (fuel : Nat) : List Effect :=
  (sseHandler env s r fuel).world.trace.drop s.trace.length

/-! ## Observations on traces -/

/-- The byte strings handed to `Write`, in order. -/
def writesOf : List Effect → List String
  | [] => []
  | .write b :: tr => b :: writesOf tr
  | _ :: tr => writesOf tr

/-- Whether the call is a `Write`. -/
def Effect.isWrite : Effect → Bool
  | .write _ => true
  | _ => false

/-- Whether the call is a `Write` of an SSE `data:` line. -/
def Effect.isDataWrite : Effect → Bool
  | .write b => "data:".data.isPrefixOf b.data
  | _ => false

/-- Whether the call is a `Flush`. -/
def Effect.isFlush : Effect → Bool
  | .flush => true
  | _ => false

/-- Whether the call is a `Sleep`. -/
def Effect.isSleep : Effect → Bool
  | .sleep _ => true
  | _ => false

/-- Whether the call touches the header map or the status line. -/
def Effect.isHeaderCall : Effect → Bool
  | .setHeader _ _ => true
  | .writeHeader _ => true
  | _ => false

/-- The nanoseconds the handler has slept before it starts its `k`-th `Write`
(counted from 0): a lower bound on the time elapsed until that write. -/
def sleptBefore : List Effect → Nat → Nat
  | [], _ => 0
  | .write _ :: _, 0 => 0
  | .write _ :: tr, k + 1 => sleptBefore tr k
  | .sleep d :: tr, k => d + sleptBefore tr k
  | _ :: tr, k => sleptBefore tr k

/-! ## A reader of the event stream -/

/-- The lines of a text, each ended by a newline (the last one possibly not). -/
def splitLines : List Char → List (List Char)
  | [] => []
  | c :: rest =>
    if c = '\n' then [] :: splitLines rest
    else
      match splitLines rest with
      | [] => [[c]]
      | l :: ls => (c :: l) :: ls

/-- The events of a list of lines: each is the run of lines before a blank
line; lines after the last blank line form no event yet. -/
def splitEvents : List (List Char) → List (List (List Char))
  | [] => []
  | l :: rest =>
    if l = [] then [] :: splitEvents rest
    else
      match splitEvents rest with
      | [] => []
      | e :: es => (l :: e) :: es

/-- The payload of an event made of the single line `data: <payload>`. -/
def decodeEvent : List (List Char) → Option String
  | [l] => if "data: ".data.isPrefixOf l then some (String.mk (l.drop 6)) else none
  | _ => none

/-- The payloads of a list of events, when every one decodes. -/
def decodeAll : List (List (List Char)) → Option (List String)
  | [] => some []
  | e :: es =>
    match decodeEvent e, decodeAll es with
    | some p, some ps => some (p :: ps)
    | _, _ => none

/-- The payloads read off a response body: the body is split on blank lines and
the `data: ` that starts each event is stripped. -/
def decodeStream (body : String) : Option (List String) :=
  decodeAll (splitEvents (splitLines body.data))

/-! ## `net/http`: the request multiplexer -/

/-- The handlers this program defines. -/
inductive HandlerFunc where
  | sseHandler
  deriving DecidableEq, Repr

/-- A request multiplexer: the registered patterns with their handler.  Only
patterns that are a plain path without trailing slash are modelled, the one
kind this program registers; such a pattern matches the paths whose segments,
unescaped, are its own. -/
structure ServeMux where
  patterns : List (String × HandlerFunc)
  deriving DecidableEq, Repr

/-- The variable `http.DefaultServeMux` at program start. -/
def DefaultServeMux : ServeMux := ⟨[]⟩

/-- The method `ServeMux.HandleFunc`. -/
def ServeMux.HandleFunc (mux : ServeMux) (pattern : String) (h : HandlerFunc) : ServeMux :=
  ⟨mux.patterns ++ [(pattern, h)]⟩

/-- The elements of a path: the texts between its slashes. -/
def splitSlash : List Char → List (List Char)
  | [] => [[]]
  | c :: rest =>
    if c = '/' then [] :: splitSlash rest
    else
      match splitSlash rest with
      | [] => [[c]]
      | e :: es => (c :: e) :: es

/-- The elements `path.Clean` keeps on a rooted path.  `stack` holds the
elements kept so far, the last one first: an empty or `.` element is dropped, a
`..` element removes the element kept last (at the root it is just dropped),
any other element is kept. -/
def cleanElems (stack : List (List Char)) : List (List Char) → List (List Char)
  | [] => stack.reverse
  | e :: rest =>
    if e = [] ∨ e = ['.'] then cleanElems stack rest
    else if e = ['.', '.'] then cleanElems stack.tail rest
    else cleanElems (e :: stack) rest

/-- Go's `path.Clean` on a rooted path. -/
def pathClean (p : List Char) : List Char :=
  '/' :: ['/'].intercalate (cleanElems [] (splitSlash p))

/-- The function `cleanPath` of `net/http`: the canonical form of a request
path, with a trailing slash kept. -/
def cleanPath (p : String) : String :=
  if p = "" then "/"
  else
    let p := if p.data.head? ≠ some '/' then "/" ++ p else p
    let np := String.mk (pathClean p.data)
    if p.data.getLast? = some '/' ∧ np ≠ "/" then
      if p.length = np.length + 1 ∧ np.data.isPrefixOf p.data then p else np ++ "/"
    else np

/-- What the multiplexer selects for a request: a registered handler, a
redirect to a path with the query of the request, or the not-found handler. -/
inductive Route where
  | handler (h : HandlerFunc)
  | redirect (path query : String)
  | notFound
  deriving DecidableEq, Repr

/-- The segments of a request path as the multiplexer matches them: the first
character (the leading slash) is dropped, the rest is cut at its slashes and
each piece is unescaped (the function `firstSegment`, repeated).  A trailing
slash shows as a last, empty piece, which no segment of a plain pattern
equals. -/
def pathSegments (path : List Char) : List (List Char) :=
  match path with
  | [] => []
  | _ :: p => (splitSlash p).map pathUnescape

/-- The segments of a registered pattern that is a plain path. -/
def patternSegments (pattern : List Char) : List (List Char) :=
  match pattern with
  | [] => []
  | _ :: p => splitSlash p

/-- The handler whose pattern the path matches, segment by segment, if any. -/
def ServeMux.lookup (mux : ServeMux) (path : String) : Option HandlerFunc :=
  (mux.patterns.find? fun e => patternSegments e.1.data == pathSegments path.data).map Prod.snd

/-- The method `ServeMux.Handler` (its `findHandler`): for a request other than
`CONNECT` the escaped path is cleaned, and a request whose path was not clean
is redirected to the cleaned path, the query kept; otherwise the handler whose
pattern matches the path is selected, or the not-found handler. -/
def ServeMux.Handler (mux : ServeMux) (r : Request) : Route :=
  if r.method ≠ "CONNECT" ∧ cleanPath r.escapedPath ≠ r.escapedPath then
    .redirect (cleanPath r.escapedPath) r.query
  else
    match mux.lookup r.escapedPath with
    | some h => .handler h
    | none => .notFound

/-- The function `http.NotFound`: the default not-found reply. -/
def NotFound (env : Env) (s : World) : World :=
  Error env s "404 page not found" StatusNotFound

/-- The function `http.Redirect`: the `Location` header, for a `GET` or `HEAD`
request without content type an HTML content type, the status, and for such a
`GET` request a short HTML body that links to the URL. -/
def Redirect (lib : Library) (env : Env) (s : World) (r : Request) (url : String)
    (code : Nat) : World :=
  let url := lib.resolveURL r url
  let hadCT := s.header.any fun kv => kv.1 == "Content-Type"
  let s := s.SetHeader "Location" (lib.hexEscapeNonASCII url)
  let s :=
    if !hadCT && (r.method == "GET" || r.method == "HEAD") then
      s.SetHeader "Content-Type" "text/html; charset=utf-8"
    else s
  let s := s.WriteHeader code
  if !hadCT && r.method == "GET" then
    (Fprintln env s
      ["<a href=\"" ++ lib.htmlEscape url ++ "\">" ++ lib.StatusText code ++ "</a>.\n"]).1
  else s

/-- The method `ServeMux.ServeHTTP`: the request target `*` is a bad request;
any other request is handed to the handler the multiplexer selects. -/
def ServeMux.ServeHTTP (lib : Library) (mux : ServeMux) (env : Env) (s : World) (r : Request)
    (fuel : Nat) : Outcome :=
  if r.escapedPath = "*" then
    let s := if r.ProtoAtLeast 1 1 then s.SetHeader "Connection" "close" else s
    .returned (s.WriteHeader StatusBadRequest)
  else
    match mux.Handler r with
    | .handler .sseHandler => sseHandler env s r fuel
    | .redirect path query =>
      .returned (Redirect lib env s r (lib.urlString path query) lib.redirectCode)
    | .notFound => .returned (NotFound env s)

/-- The reply of the server's own handler for `OPTIONS *`: an empty reply, to
which the server gives status 200 when the handler returns. -/
def globalOptionsHandler (s : World) : World :=
  (s.SetHeader "Content-Length" "0").WriteHeader StatusOK

/-- The method `serverHandler.ServeHTTP` of a server started without a handler
of its own, as `http.ListenAndServe(addr, nil)` does: `OPTIONS *` is answered
by the server itself, every other request by the multiplexer. -/
def serverHandler (lib : Library) (mux : ServeMux) (env : Env) (s : World) (r : Request)
    (fuel : Nat) : Outcome :=
  if r.escapedPath = "*" ∧ r.method = "OPTIONS" then .returned (globalOptionsHandler s)
  else mux.ServeHTTP lib env s r fuel

/-! ## `main` -/

/-- The state of the process: the routes registered, what was printed on
standard output, the address served, and the exit status once the process has
terminated. -/
structure Process where
  mux : ServeMux
  stdout : String
  serving : Option String
  exitStatus : Option Nat
  deriving DecidableEq, Repr

/-- The function `main`.  `listenErr` is the result of
`http.ListenAndServe(":8080", nil)`: `none` while the server serves (the call
does not return), `some err` when it returns the error `err`.  A `main` that
returns ends the process with exit status 0. -/
def main (listenErr : Option String) : Process :=
  let mux := DefaultServeMux.HandleFunc "/sse" .sseHandler
  let out := sprintln ["SSE server listening on :8080"]
  match listenErr with
  | none => ⟨mux, out, some ":8080", none⟩
  | some err => ⟨mux, out ++ sprintln ["Failed to start server: ", err], none, some 0⟩

/-! ## Clock readings and sample inputs -/

/-- The texts of `n` consecutive clock readings, from the reading number `start`. -/
def readings (env : Env) (start n : Nat) : List String :=
  (List.range n).map fun i => env.now (start + i)

/-- A connection the client has already closed: every write fails. -/
def deadConn : Env := ⟨fun _ => "t", fun _ => false⟩

/-- A connection that stays open, with a clock that shows a counter. -/
def liveConn : Env := ⟨fun i => String.mk (Nat.toDigits 10 i), fun _ => true⟩

/-- A plain `GET /sse` request. -/
def getSse : Request := ⟨"GET", "/sse", "", [], "", 1, 1⟩

/-- A `GET` request for a path that is not registered. -/
def getOther : Request := ⟨"GET", "/other", "", [], "", 1, 1⟩

/-- A `GET` request for `/sse` written with a doubled slash. -/
def getDoubleSlash : Request := ⟨"GET", "//sse", "", [], "", 1, 1⟩

/-- A `GET` request for `/sse` written with an escape for its last letter. -/
def getEscaped : Request := ⟨"GET", "/ss%65", "", [], "", 1, 1⟩

/-- A library for sample runs: the redirect status of a current Go release,
and texts that need no escaping left as they are. -/
def sampleLib : Library :=
  ⟨307, fun p q => p ++ (if q = "" then "" else "?" ++ q), fun _ u => u, id, id,
    fun _ => "Temporary Redirect"⟩

/-! ## Lemmas on the loop -/

section Lemmas

/-- The text of one event: the format `data: %s\n\n` applied to a payload. -/
theorem sprintf_data (p : String) :
    String.mk (sprintf "data: %s\n\n".data [p]) = "data: " ++ p ++ "\n\n" := by
  apply String.ext
  simp [sprintf]

theorem join_cons (a : String) (l : List String) :
    String.join (a :: l) = a ++ String.join l := by
  have key : ∀ (l : List String) (acc : String),
      List.foldl (fun r s => r ++ s) acc l = acc ++ List.foldl (fun r s => r ++ s) "" l := by
    intro l
    induction l with
    | nil => intro acc; simp
    | cons b l ih =>
      intro acc
      rw [List.foldl_cons, List.foldl_cons, ih (acc ++ b), ih ("" ++ b)]
      simp [String.append_assoc]
  simp only [String.join, List.foldl_cons]
  rw [key l ("" ++ a)]
  simp

theorem loopBody_trace (env : Env) (s : World) :
    (loopBody env s).trace =
      s.trace ++ [.write ("data: " ++ env.now s.reads ++ "\n\n"), .flush, .sleep (2 * Second)] := by
  rw [← sprintf_data]
  show s.trace ++ [_] ++ [_] ++ [_] = _
  simp

theorem loopBody_header (env : Env) (s : World) : (loopBody env s).header = s.header := rfl

theorem loopBody_flusher (env : Env) (s : World) : (loopBody env s).flusher = s.flusher := rfl

theorem loopBody_reads (env : Env) (s : World) : (loopBody env s).reads = s.reads + 1 := rfl

theorem loopBody_writes (env : Env) (s : World) : (loopBody env s).writes = s.writes + 1 := rfl

theorem loopBody_status (env : Env) (s : World) :
    (loopBody env s).status = some (s.status.getD StatusOK) := rfl

theorem loopBody_body (env : Env) (s : World) :
    (loopBody env s).body =
      if env.writeOk s.writes then s.body ++ ("data: " ++ env.now s.reads ++ "\n\n") else s.body := by
  rw [← sprintf_data]
  rfl

/-- The calls of the iterations `i, i + 1, ..., i + n - 1` of the loop. -/
theorem forLoop_trace (env : Env) (n : Nat) (s : World) :
    (forLoop env n s).trace =
      s.trace ++ (List.range n).flatMap fun i =>
        [.write ("data: " ++ env.now (s.reads + i) ++ "\n\n"), .flush, .sleep (2 * Second)] := by
  induction n generalizing s with
  | zero => simp [forLoop]
  | succ n ih =>
    rw [forLoop, ih, loopBody_trace, loopBody_reads, List.range_succ_eq_map]
    simp [List.flatMap_map, Nat.add_assoc, Nat.add_comm 1]

theorem forLoop_header (env : Env) (n : Nat) (s : World) : (forLoop env n s).header = s.header := by
  induction n generalizing s with
  | zero => rfl
  | succ n ih => rw [forLoop, ih, loopBody_header]

theorem forLoop_body (env : Env) (n : Nat) (s : World)
    (h : ∀ i, i < n → env.writeOk (s.writes + i) = true) :
    (forLoop env n s).body =
      s.body ++ String.join ((List.range n).map fun i => "data: " ++ env.now (s.reads + i) ++ "\n\n") := by
  induction n generalizing s with
  | zero => simp [forLoop, String.join]
  | succ n ih =>
    have h0 : env.writeOk s.writes = true := by simpa using h 0 (Nat.succ_pos n)
    rw [forLoop, ih, loopBody_body, loopBody_reads, List.range_succ_eq_map, h0]
    · simp [List.map_map, join_cons, Function.comp_def, Nat.add_assoc, Nat.add_comm 1,
        String.append_assoc]
    · intro i hi
      rw [loopBody_writes]
      have := h (i + 1) (by omega)
      simpa [Nat.add_assoc, Nat.add_comm 1] using this

end Lemmas

section HandlerLemmas

theorem Header.Get_Set_self (h : Header) (k v : String) : (h.Set k v).Get k = some v := by
  have hnone : List.find? (fun kv => kv.1 == k) (List.filter (fun kv => kv.1 != k) h) = none := by
    rw [List.find?_eq_none]
    intro x hx
    have := (List.mem_filter.mp hx).2
    simpa using this
  simp [Header.Get, Header.Set, List.find?_append, hnone]

theorem Header.Get_Set_ne (h : Header) (k v k' : String) (hk : k' ≠ k) :
    (h.Set k v).Get k' = h.Get k' := by
  have hfilter : List.find? (fun kv => kv.1 == k') (List.filter (fun kv => kv.1 != k) h)
      = List.find? (fun kv => kv.1 == k') h := by
    induction h with
    | nil => rfl
    | cons a t ih =>
      by_cases ha : a.1 = k
      · have hne : ¬ ((fun kv : String × String => kv.1 == k') a = true) := by
          intro e
          exact hk ((beq_iff_eq.mp e).symm.trans ha)
        have hfa : ¬ ((fun kv : String × String => kv.1 != k) a = true) := by simp [ha]
        rw [List.filter_cons_of_neg (p := fun kv : String × String => kv.1 != k) hfa,
          List.find?_cons_of_neg (p := fun kv : String × String => kv.1 == k') _ hne, ih]
      · have hfa : (fun kv : String × String => kv.1 != k) a = true := by simp [ha]
        rw [List.filter_cons_of_pos (p := fun kv : String × String => kv.1 != k) hfa]
        by_cases hb : (fun kv : String × String => kv.1 == k') a = true
        · rw [List.find?_cons_of_pos (p := fun kv : String × String => kv.1 == k') _ hb,
            List.find?_cons_of_pos (p := fun kv : String × String => kv.1 == k') _ hb]
        · rw [List.find?_cons_of_neg (p := fun kv : String × String => kv.1 == k') _ hb,
            List.find?_cons_of_neg (p := fun kv : String × String => kv.1 == k') _ hb, ih]
  have hlast : List.find? (fun kv => kv.1 == k') [(k, v)] = none := by
    simp [List.find?_cons, Ne.symm hk]
  simp [Header.Get, Header.Set, List.find?_append, hfilter, hlast]

/-- With a sink that can flush, the handler sets its five headers and is then
inside its loop, whatever the number of iterations. -/
theorem sseHandler_flusher (env : Env) (s : World) (r : Request) (n : Nat)
    (h : s.flusher = true) :
    sseHandler env s r n = .running (forLoop env n
      (((((s.SetHeader "Content-Type" "text/event-stream").SetHeader
        "Cache-Control" "no-cache").SetHeader "Connection" "keep-alive").SetHeader
        "Access-Control-Allow-Origin" "*").SetHeader
        "Access-Control-Allow-Headers" "Content-Type")) := by
  simp [sseHandler, h]

/-- The calls the handler makes on a sink that can flush: five `Set` calls on
the header map, then a write, a flush and a sleep per iteration. -/
theorem handlerTrace_flusher (env : Env) (s : World) (r : Request) (n : Nat)
    (h : s.flusher = true) :
    handlerTrace env s r n =
      [.setHeader "Content-Type" "text/event-stream",
       .setHeader "Cache-Control" "no-cache",
       .setHeader "Connection" "keep-alive",
       .setHeader "Access-Control-Allow-Origin" "*",
       .setHeader "Access-Control-Allow-Headers" "Content-Type"] ++
      (List.range n).flatMap fun i =>
        [.write ("data: " ++ env.now (s.reads + i) ++ "\n\n"), .flush, .sleep (2 * Second)] := by
  rw [handlerTrace, sseHandler_flusher env s r n h, Outcome.world, forLoop_trace]
  simp [World.SetHeader]

theorem writesOf_append (a b : List Effect) : writesOf (a ++ b) = writesOf a ++ writesOf b := by
  induction a with
  | nil => rfl
  | cons e a ih => cases e <;> simp [writesOf, ih]

theorem writesOf_loop (f : Nat → String) (d : Nat) (l : List Nat) :
    writesOf (l.flatMap fun i => [.write (f i), .flush, .sleep d]) = l.map f := by
  induction l with
  | nil => rfl
  | cons a l ih =>
    rw [List.flatMap_cons, writesOf_append, ih]
    rfl

theorem writesOf_handlerTrace (env : Env) (s : World) (r : Request) (n : Nat)
    (h : s.flusher = true) :
    writesOf (handlerTrace env s r n) =
      (List.range n).map fun i => "data: " ++ env.now (s.reads + i) ++ "\n\n" := by
  rw [handlerTrace_flusher env s r n h, writesOf_append,
    writesOf_loop (fun i => "data: " ++ env.now (s.reads + i) ++ "\n\n")]
  simp [writesOf]

end HandlerLemmas

/-! ## The handler on a sink that cannot flush -/

/-- C1: on a response sink that does not implement `http.Flusher`, whatever the
number of loop iterations allowed, `sseHandler` returns; the calls it made are
the two header settings of a plain-text reply, status 500 and one write of
`Streaming unsupported!` with a newline; the status is 500 when none was
written before, the content type is plain text, the bytes reach the body when
the connection accepts them; there is no `data:` write, no flush, no sleep. -/
theorem sseHandler_streaming_unsupported (env : Env) (s : World) (r : Request) (fuel : Nat)
    (h : s.flusher = false) :
    ∃ s', sseHandler env s r fuel = .returned s' ∧
      handlerTrace env s r fuel =
        [.setHeader "Content-Type" "text/plain; charset=utf-8",
         .setHeader "X-Content-Type-Options" "nosniff",
         .writeHeader 500,
         .write ("Streaming unsupported" ++ "!\n")] ∧
      (s.status = none → s'.status = some 500) ∧
      s'.header.Get "Content-Type" = some "text/plain; charset=utf-8" ∧
      (env.writeOk s.writes = true → s'.body = s.body ++ ("Streaming unsupported" ++ "!\n")) ∧
      (handlerTrace env s r fuel).countP Effect.isDataWrite = 0 ∧
      (handlerTrace env s r fuel).countP Effect.isFlush = 0 ∧
      (handlerTrace env s r fuel).countP Effect.isSleep = 0 := by
  have hret : sseHandler env s r fuel =
      .returned (Error env s "Streaming unsupported!" StatusInternalServerError) := by
    simp [sseHandler, h]
  have htr : handlerTrace env s r fuel =
      [.setHeader "Content-Type" "text/plain; charset=utf-8",
       .setHeader "X-Content-Type-Options" "nosniff",
       .writeHeader 500,
       .write ("Streaming unsupported" ++ "!\n")] := by
    rw [handlerTrace, hret]
    show (s.trace ++ [_] ++ [_] ++ [_] ++ [_]).drop s.trace.length = _
    simp
    refine ⟨rfl, ?_⟩
    decide
  refine ⟨_, hret, htr, ?_, ?_, ?_, ?_, ?_, ?_⟩
  · intro hs
    show some ((some ((s.status).getD StatusInternalServerError)).getD StatusOK) = some 500
    rw [hs]
    rfl
  · show ((s.header.Set "Content-Type" "text/plain; charset=utf-8").Set
      "X-Content-Type-Options" "nosniff").Get "Content-Type" = _
    rw [Header.Get_Set_ne _ _ _ _ (by decide), Header.Get_Set_self]
  · intro hw
    show (if env.writeOk s.writes = true then s.body ++ sprintln ["Streaming unsupported!"]
      else s.body) = _
    rw [if_pos hw]
    congr 1
  · rw [htr]; decide
  · rw [htr]; decide
  · rw [htr]; decide

/-- C1, at a concrete input: a fresh response on a sink without flush. -/
theorem sseHandler_streaming_unsupported_witness :
    ∃ s', sseHandler liveConn (World.fresh false) getSse 3 = .returned s' ∧
      handlerTrace liveConn (World.fresh false) getSse 3 =
        [.setHeader "Content-Type" "text/plain; charset=utf-8",
         .setHeader "X-Content-Type-Options" "nosniff",
         .writeHeader 500,
         .write ("Streaming unsupported" ++ "!\n")] ∧
      ((World.fresh false).status = none → s'.status = some 500) ∧
      s'.header.Get "Content-Type" = some "text/plain; charset=utf-8" ∧
      (liveConn.writeOk (World.fresh false).writes = true →
        s'.body = (World.fresh false).body ++ ("Streaming unsupported" ++ "!\n")) ∧
      (handlerTrace liveConn (World.fresh false) getSse 3).countP Effect.isDataWrite = 0 ∧
      (handlerTrace liveConn (World.fresh false) getSse 3).countP Effect.isFlush = 0 ∧
      (handlerTrace liveConn (World.fresh false) getSse 3).countP Effect.isSleep = 0 :=
  sseHandler_streaming_unsupported liveConn (World.fresh false) getSse 3 rfl

/-! ## The handler after a failed write -/

/-- C2, refuted as stated: on a connection where every write fails, the first
event write fails, and after two iterations the handler has not returned and
has performed a second write. -/
theorem sseHandler_write_failure_counterexample :
    deadConn.writeOk 0 = false ∧
    (∃ s', sseHandler deadConn (World.fresh true) getSse 2 = .running s') ∧
    writesOf (handlerTrace deadConn (World.fresh true) getSse 2) =
      ["data: t\n\n", "data: t\n\n"] := by
  refine ⟨rfl, ⟨_, rfl⟩, ?_⟩
  decide

/-- C2, as the code behaves: the results of the event write are discarded.  On
a sink that can flush the handler never returns, whatever writes fail; after
`n` iterations it has performed `n` writes, so a failed `k`-th write is
followed by a `(k+1)`-th one; and the calls it makes are the same on any two
connections that differ only in which writes fail. -/
theorem sseHandler_ignores_write_failure (env : Env) (s : World) (r : Request) (n : Nat)
    (h : s.flusher = true) :
    (∃ s', sseHandler env s r n = .running s') ∧
    (writesOf (handlerTrace env s r n)).length = n ∧
    (∀ k, k + 1 < n → env.writeOk (s.writes + k) = false →
      (writesOf (handlerTrace env s r n))[k + 1]? =
        some ("data: " ++ env.now (s.reads + (k + 1)) ++ "\n\n")) ∧
    (∀ ok : Nat → Bool, handlerTrace ⟨env.now, ok⟩ s r n = handlerTrace env s r n) := by
  refine ⟨⟨_, sseHandler_flusher env s r n h⟩, ?_, ?_, ?_⟩
  · rw [writesOf_handlerTrace env s r n h]
    simp
  · intro k hk _
    rw [writesOf_handlerTrace env s r n h]
    simp [hk]
  · intro ok
    rw [handlerTrace_flusher env s r n h, handlerTrace_flusher ⟨env.now, ok⟩ s r n h]

/-- C2 as amended, at a concrete input: three iterations on a dead connection. -/
theorem sseHandler_ignores_write_failure_witness :
    (∃ s', sseHandler deadConn (World.fresh true) getSse 3 = .running s') ∧
    (writesOf (handlerTrace deadConn (World.fresh true) getSse 3)).length = 3 ∧
    (∀ k, k + 1 < 3 → deadConn.writeOk ((World.fresh true).writes + k) = false →
      (writesOf (handlerTrace deadConn (World.fresh true) getSse 3))[k + 1]? =
        some ("data: " ++ deadConn.now ((World.fresh true).reads + (k + 1)) ++ "\n\n")) ∧
    (∀ ok : Nat → Bool, handlerTrace ⟨deadConn.now, ok⟩ (World.fresh true) getSse 3 =
      handlerTrace deadConn (World.fresh true) getSse 3) :=
  sseHandler_ignores_write_failure deadConn (World.fresh true) getSse 3 rfl

/-! ## The header phase -/

/-- C3: on a sink that can flush, the calls of `sseHandler` start with exactly
five `Set` calls on the header map, one per header, with the values of an event
stream; every later call leaves the header map and the status line alone (so
the five settings precede the first write); the header map after any number of
iterations is the one the five settings produced, each header reads back its
value, and on a fresh response the map holds these five entries only. -/
theorem sseHandler_headers (env : Env) (s : World) (r : Request) (n : Nat)
    (h : s.flusher = true) :
    (∃ loop, handlerTrace env s r n =
        [.setHeader "Content-Type" "text/event-stream",
         .setHeader "Cache-Control" "no-cache",
         .setHeader "Connection" "keep-alive",
         .setHeader "Access-Control-Allow-Origin" "*",
         .setHeader "Access-Control-Allow-Headers" "Content-Type"] ++ loop ∧
      ∀ e ∈ loop, e.isHeaderCall = false) ∧
    (sseHandler env s r n).world.header = (sseHandler env s r 0).world.header ∧
    (sseHandler env s r n).world.header.Get "Content-Type" = some "text/event-stream" ∧
    (sseHandler env s r n).world.header.Get "Cache-Control" = some "no-cache" ∧
    (sseHandler env s r n).world.header.Get "Connection" = some "keep-alive" ∧
    (sseHandler env s r n).world.header.Get "Access-Control-Allow-Origin" = some "*" ∧
    (sseHandler env s r n).world.header.Get "Access-Control-Allow-Headers" = some "Content-Type" ∧
    (s.header = [] → (sseHandler env s r n).world.header =
      [("Content-Type", "text/event-stream"), ("Cache-Control", "no-cache"),
       ("Connection", "keep-alive"), ("Access-Control-Allow-Origin", "*"),
       ("Access-Control-Allow-Headers", "Content-Type")]) := by
  have hhdr : (sseHandler env s r n).world.header =
      ((((s.header.Set "Content-Type" "text/event-stream").Set "Cache-Control" "no-cache").Set
        "Connection" "keep-alive").Set "Access-Control-Allow-Origin" "*").Set
        "Access-Control-Allow-Headers" "Content-Type" := by
    rw [sseHandler_flusher env s r n h, Outcome.world, forLoop_header]
    rfl
  have hhdr0 : (sseHandler env s r 0).world.header =
      ((((s.header.Set "Content-Type" "text/event-stream").Set "Cache-Control" "no-cache").Set
        "Connection" "keep-alive").Set "Access-Control-Allow-Origin" "*").Set
        "Access-Control-Allow-Headers" "Content-Type" := by
    rw [sseHandler_flusher env s r 0 h, Outcome.world, forLoop_header]
    rfl
  refine ⟨⟨_, handlerTrace_flusher env s r n h, ?_⟩, ?_, ?_, ?_, ?_, ?_, ?_, ?_⟩
  · intro e he
    rw [List.mem_flatMap] at he
    obtain ⟨i, _, hi⟩ := he
    simp only [List.mem_cons, List.mem_singleton, List.not_mem_nil, or_false] at hi
    rcases hi with rfl | rfl | rfl <;> rfl
  · rw [hhdr, hhdr0]
  · rw [hhdr, Header.Get_Set_ne _ _ _ _ (by decide), Header.Get_Set_ne _ _ _ _ (by decide),
      Header.Get_Set_ne _ _ _ _ (by decide), Header.Get_Set_ne _ _ _ _ (by decide),
      Header.Get_Set_self]
  · rw [hhdr, Header.Get_Set_ne _ _ _ _ (by decide), Header.Get_Set_ne _ _ _ _ (by decide),
      Header.Get_Set_ne _ _ _ _ (by decide), Header.Get_Set_self]
  · rw [hhdr, Header.Get_Set_ne _ _ _ _ (by decide), Header.Get_Set_ne _ _ _ _ (by decide),
      Header.Get_Set_self]
  · rw [hhdr, Header.Get_Set_ne _ _ _ _ (by decide), Header.Get_Set_self]
  · rw [hhdr, Header.Get_Set_self]
  · intro h0
    rw [hhdr, h0]
    decide

/-- C3, at a concrete input: four iterations on a fresh response. -/
theorem sseHandler_headers_witness :
    (∃ loop, handlerTrace liveConn (World.fresh true) getSse 4 =
        [.setHeader "Content-Type" "text/event-stream",
         .setHeader "Cache-Control" "no-cache",
         .setHeader "Connection" "keep-alive",
         .setHeader "Access-Control-Allow-Origin" "*",
         .setHeader "Access-Control-Allow-Headers" "Content-Type"] ++ loop ∧
      ∀ e ∈ loop, e.isHeaderCall = false) ∧
    (sseHandler liveConn (World.fresh true) getSse 4).world.header =
      [("Content-Type", "text/event-stream"), ("Cache-Control", "no-cache"),
       ("Connection", "keep-alive"), ("Access-Control-Allow-Origin", "*"),
       ("Access-Control-Allow-Headers", "Content-Type")] :=
  have t := sseHandler_headers liveConn (World.fresh true) getSse 4 rfl
  ⟨t.1, t.2.2.2.2.2.2.2 rfl⟩

/-! ## The text of an event -/

/-- C4: on a sink that can flush, the byte strings `sseHandler` writes during
its first `n` iterations are, in order, `data: ` followed by the text of the
clock reading of that iteration followed by two newlines, and nothing else. -/
theorem sseHandler_event_bytes (env : Env) (s : World) (r : Request) (n : Nat)
    (h : s.flusher = true) :
    writesOf (handlerTrace env s r n) =
      (List.range n).map fun i => "data: " ++ env.now (s.reads + i) ++ "\n\n" :=
  writesOf_handlerTrace env s r n h

/-- C4, at a concrete input: two iterations with a clock that shows a counter. -/
theorem sseHandler_event_bytes_witness :
    writesOf (handlerTrace liveConn (World.fresh true) getSse 2) =
      (List.range 2).map fun i => "data: " ++ liveConn.now ((World.fresh true).reads + i) ++ "\n\n" :=
  sseHandler_event_bytes liveConn (World.fresh true) getSse 2 rfl

/-! ## Startup failure -/

/-- C5, refuted as stated: when the listener fails to start because the port
is in use, the process does not end with a non-zero exit status. -/
theorem main_exit_status_counterexample :
    ¬ ∃ c, (main (some "listen tcp :8080: bind: address already in use")).exitStatus = some c
      ∧ c ≠ 0 := by
  decide

/-- C5, as the code behaves: when `http.ListenAndServe` returns an error,
`main` prints after the startup line one line made of
`Failed to start server: `, a space and the error text, serves nothing, and
returns, which ends the process with exit status 0. -/
theorem main_listen_error (err : String) :
    (main (some err)).stdout =
      "SSE server listening on :8080\n" ++ ("Failed to start server: " ++ " " ++ err ++ "\n") ∧
    (main (some err)).serving = none ∧
    (main (some err)).exitStatus = some 0 := by
  refine ⟨?_, rfl, rfl⟩
  show sprintln _ ++ sprintln _ = _
  congr 1

/-! ## Request independence -/

/-- C9: `sseHandler` does not read the request.  For any two requests, with the
same sink and the same environment (clock readings and connection), the handler
reaches the same outcome after any number of iterations: same status, same
headers, same body, same calls (writes, flushes and sleeps with their
durations). -/
theorem sseHandler_request_independent (env : Env) (s : World) (r₁ r₂ : Request) (n : Nat) :
    sseHandler env s r₁ n = sseHandler env s r₂ n ∧
    handlerTrace env s r₁ n = handlerTrace env s r₂ n :=
  ⟨rfl, rfl⟩

section LoopLemmas

theorem loop_getElem (f : Nat → String) (d : Nat) (l : List Nat) (i : Nat) (b : String)
    (h : (l.flatMap fun k => [Effect.write (f k), Effect.flush, Effect.sleep d])[i]?
      = some (Effect.write b)) :
    (l.flatMap fun k => [Effect.write (f k), Effect.flush, Effect.sleep d])[i + 1]?
      = some Effect.flush ∧
    (l.flatMap fun k => [Effect.write (f k), Effect.flush, Effect.sleep d])[i + 2]?
      = some (Effect.sleep d) := by
  induction l generalizing i with
  | nil => simp at h
  | cons a l ih =>
    rw [List.flatMap_cons] at h ⊢
    match i with
    | 0 => simp
    | 1 => simp at h
    | 2 => simp at h
    | i + 3 =>
      have h3 : (l.flatMap fun k => [Effect.write (f k), Effect.flush, Effect.sleep d])[i]?
          = some (Effect.write b) := by
        simpa using h
      have := ih i h3
      simpa using this

theorem loop_count_write (f : Nat → String) (d : Nat) (l : List Nat) :
    (l.flatMap fun k => [Effect.write (f k), Effect.flush, Effect.sleep d]).countP Effect.isWrite
      = l.length := by
  induction l with
  | nil => rfl
  | cons a l ih =>
    rw [List.flatMap_cons, List.countP_append, ih]
    simp [List.countP_cons, Effect.isWrite]
    omega

theorem loop_count_flush (f : Nat → String) (d : Nat) (l : List Nat) :
    (l.flatMap fun k => [Effect.write (f k), Effect.flush, Effect.sleep d]).countP Effect.isFlush
      = l.length := by
  induction l with
  | nil => rfl
  | cons a l ih =>
    rw [List.flatMap_cons, List.countP_append, ih]
    simp [List.countP_cons, Effect.isFlush]
    omega

theorem loop_sleptBefore (f : Nat → String) (d : Nat) (l : List Nat) (k : Nat)
    (hk : k < l.length) :
    sleptBefore (l.flatMap fun k => [Effect.write (f k), Effect.flush, Effect.sleep d]) k
      = k * d := by
  induction l generalizing k with
  | nil => simp at hk
  | cons a l ih =>
    rw [List.flatMap_cons]
    match k with
    | 0 => simp [sleptBefore]
    | k + 1 =>
      have hk2 : k < l.length := by simpa using hk
      show d + sleptBefore (l.flatMap fun k => [Effect.write (f k), Effect.flush, Effect.sleep d])
        k = _
      rw [ih k hk2]
      ring

end LoopLemmas

/-! ## Flush and cadence -/

/-- C7: on a sink that can flush, in the calls `sseHandler` makes during its
first `n` iterations every write is directly followed by a flush and then by a
sleep of two seconds; there are `n` writes and `n` flushes. -/
theorem sseHandler_flush_after_write (env : Env) (s : World) (r : Request) (n : Nat)
    (h : s.flusher = true) :
    (∀ i b, (handlerTrace env s r n)[i]? = some (.write b) →
      (handlerTrace env s r n)[i + 1]? = some .flush ∧
      (handlerTrace env s r n)[i + 2]? = some (.sleep (2 * Second))) ∧
    (handlerTrace env s r n).countP Effect.isWrite = n ∧
    (handlerTrace env s r n).countP Effect.isFlush = n := by
  rw [handlerTrace_flusher env s r n h]
  refine ⟨?_, ?_, ?_⟩
  · intro i b hi
    match i with
    | 0 => simp at hi
    | 1 => simp at hi
    | 2 => simp at hi
    | 3 => simp at hi
    | 4 => simp at hi
    | i + 5 =>
      have h5 : ((List.range n).flatMap fun k =>
          [Effect.write ("data: " ++ env.now (s.reads + k) ++ "\n\n"), Effect.flush,
            Effect.sleep (2 * Second)])[i]? = some (Effect.write b) := by
        simpa using hi
      have := loop_getElem (fun k => "data: " ++ env.now (s.reads + k) ++ "\n\n") (2 * Second)
        (List.range n) i b h5
      simpa using this
  · rw [List.countP_append,
      loop_count_write (fun k => "data: " ++ env.now (s.reads + k) ++ "\n\n")]
    simp [List.countP_cons, Effect.isWrite]
  · rw [List.countP_append,
      loop_count_flush (fun k => "data: " ++ env.now (s.reads + k) ++ "\n\n")]
    simp [List.countP_cons, Effect.isFlush]

/-- C7, at a concrete input: three iterations on a fresh response. -/
theorem sseHandler_flush_after_write_witness :
    (∀ i b, (handlerTrace liveConn (World.fresh true) getSse 3)[i]? = some (.write b) →
      (handlerTrace liveConn (World.fresh true) getSse 3)[i + 1]? = some .flush ∧
      (handlerTrace liveConn (World.fresh true) getSse 3)[i + 2]? = some (.sleep (2 * Second))) ∧
    (handlerTrace liveConn (World.fresh true) getSse 3).countP Effect.isWrite = 3 ∧
    (handlerTrace liveConn (World.fresh true) getSse 3).countP Effect.isFlush = 3 :=
  sseHandler_flush_after_write liveConn (World.fresh true) getSse 3 rfl

/-- C8: on a sink that can flush, `sseHandler` is still in its loop after any
number `n` of iterations and has then performed `n` event writes; its calls
are the five header settings followed, for each iteration in turn, by the write
of that iteration's event, a flush and one sleep of `2 * Second` nanoseconds
(two seconds), so exactly one two-second sleep separates consecutive writes; no
sleep precedes the first write, and the handler has slept `k` times two
seconds before its `k`-th write, counted from 0. -/
theorem sseHandler_cadence (env : Env) (s : World) (r : Request) (n : Nat)
    (h : s.flusher = true) :
    (∃ s', sseHandler env s r n = .running s') ∧
    (handlerTrace env s r n).countP Effect.isWrite = n ∧
    (∃ hdr, hdr.length = 5 ∧ (∀ e ∈ hdr, e.isSleep = false ∧ e.isWrite = false) ∧
      handlerTrace env s r n = hdr ++ (List.range n).flatMap fun k =>
        [.write ("data: " ++ env.now (s.reads + k) ++ "\n\n"), .flush, .sleep (2 * Second)]) ∧
    (∀ k, k < n → sleptBefore (handlerTrace env s r n) k = k * (2 * Second)) ∧
    2 * Second = 2000000000 := by
  refine ⟨⟨_, sseHandler_flusher env s r n h⟩, ?_, ⟨_, ?_, ?_, handlerTrace_flusher env s r n h⟩,
    ?_, rfl⟩
  · rw [handlerTrace_flusher env s r n h, List.countP_append,
      loop_count_write (fun k => "data: " ++ env.now (s.reads + k) ++ "\n\n")]
    simp [List.countP_cons, Effect.isWrite]
  · rfl
  · intro e he
    simp only [List.mem_cons, List.mem_singleton, List.not_mem_nil, or_false] at he
    rcases he with rfl | rfl | rfl | rfl | rfl <;> exact ⟨rfl, rfl⟩
  · intro k hk
    rw [handlerTrace_flusher env s r n h]
    show sleptBefore ((List.range n).flatMap fun k =>
      [Effect.write ("data: " ++ env.now (s.reads + k) ++ "\n\n"), Effect.flush,
        Effect.sleep (2 * Second)]) k = _
    exact loop_sleptBefore (fun k => "data: " ++ env.now (s.reads + k) ++ "\n\n") (2 * Second)
      (List.range n) k (by simpa using hk)

/-- C8, at a concrete input: five iterations on a fresh response. -/
theorem sseHandler_cadence_witness :
    (∃ s', sseHandler liveConn (World.fresh true) getSse 5 = .running s') ∧
    (handlerTrace liveConn (World.fresh true) getSse 5).countP Effect.isWrite = 5 ∧
    (∀ k, k < 5 → sleptBefore (handlerTrace liveConn (World.fresh true) getSse 5) k
      = k * (2 * Second)) :=
  have t := sseHandler_cadence liveConn (World.fresh true) getSse 5 rfl
  ⟨t.1, t.2.1, t.2.2.2.1⟩

section StreamLemmas

theorem splitLines_line (l rest : List Char) (hl : '\n' ∉ l) :
    splitLines (l ++ '\n' :: rest) = l :: splitLines rest := by
  induction l with
  | nil => simp [splitLines]
  | cons c l ih =>
    have hc : c ≠ '\n' := fun e => hl (e ▸ List.mem_cons_self _ _)
    have hl2 : '\n' ∉ l := fun e => hl (List.mem_cons_of_mem _ e)
    rw [List.cons_append, splitLines, if_neg hc, ih hl2]

theorem splitLines_event (p : String) (rest : List Char) (hp : '\n' ∉ p.data) :
    splitLines (("data: " ++ p ++ "\n\n").data ++ rest) =
      ("data: " ++ p).data :: [] :: splitLines rest := by
  have e : ("data: " ++ p ++ "\n\n").data ++ rest =
      ("data: " ++ p).data ++ '\n' :: ([] ++ '\n' :: rest) := by
    simp [String.data_append]
  have hd : '\n' ∉ ("data: " ++ p).data := by
    simp [String.data_append, hp]
  rw [e, splitLines_line _ _ hd, splitLines_line _ _ (List.not_mem_nil _)]

theorem join_data_cons (a : String) (l : List String) :
    (String.join (a :: l)).data = a.data ++ (String.join l).data := by
  rw [join_cons, String.data_append]

theorem decodeEvent_data (p : String) : decodeEvent [("data: " ++ p).data] = some p := by
  simp [decodeEvent, String.data_append, List.isPrefixOf]

theorem data_line_ne_nil (p : String) : ("data: " ++ p).data ≠ [] := by
  simp [String.data_append]

theorem splitLines_stream (ps : List String) (hp : ∀ p ∈ ps, '\n' ∉ p.data) :
    splitLines (String.join (ps.map fun p => "data: " ++ p ++ "\n\n")).data =
      ps.flatMap fun p => [("data: " ++ p).data, []] := by
  induction ps with
  | nil => rfl
  | cons p ps ih =>
    rw [List.map_cons, join_data_cons, splitLines_event _ _ (hp p (List.mem_cons_self _ _)),
      ih (fun q hq => hp q (List.mem_cons_of_mem _ hq)), List.flatMap_cons]
    rfl

theorem decodeStream_stream (ps : List String) (hp : ∀ p ∈ ps, '\n' ∉ p.data) :
    decodeStream (String.join (ps.map fun p => "data: " ++ p ++ "\n\n")) = some ps := by
  rw [decodeStream, splitLines_stream ps hp]
  clear hp
  induction ps with
  | nil => rfl
  | cons p ps ih =>
    rw [List.flatMap_cons]
    show decodeAll (splitEvents (("data: " ++ p).data :: [] :: _)) = _
    rw [splitEvents, if_neg (data_line_ne_nil p), splitEvents, if_pos rfl]
    show decodeAll ([("data: " ++ p).data] :: _) = _
    rw [decodeAll, decodeEvent_data]
    show (match some p, decodeAll (splitEvents (ps.flatMap fun p => [("data: " ++ p).data, []]))
      with
      | some p, some ps => some (p :: ps)
      | _, _ => none) = _
    rw [ih]

end StreamLemmas

/-! ## The event stream -/

/-- C6: on a sink that can flush, for every `N` such that the first `N` clock
readings are non-empty and contain no newline, the bytes `sseHandler` writes in
its first `N` iterations are the concatenation, in order, of `data: <reading>`
followed by two newlines; read as lines they are, for each reading in turn, the
line `data: <reading>` and one blank line; every reading is non-empty;
splitting them on blank lines and stripping `data: ` gives back exactly the
`N` readings in order; and when the connection accepts these writes they are
what the body receives. -/
theorem sseHandler_body_events (env : Env) (s : World) (r : Request) (N : Nat)
    (h : s.flusher = true)
    (hp : ∀ i, i < N → env.now (s.reads + i) ≠ "" ∧ '\n' ∉ (env.now (s.reads + i)).data) :
    String.join (writesOf (handlerTrace env s r N)) =
      String.join ((readings env s.reads N).map fun p => "data: " ++ p ++ "\n\n") ∧
    splitLines (String.join (writesOf (handlerTrace env s r N))).data =
      (readings env s.reads N).flatMap (fun p => [("data: " ++ p).data, []]) ∧
    (readings env s.reads N).length = N ∧
    (∀ p ∈ readings env s.reads N, p ≠ "") ∧
    decodeStream (String.join (writesOf (handlerTrace env s r N))) =
      some (readings env s.reads N) ∧
    ((∀ i, i < N → env.writeOk (s.writes + i) = true) →
      (sseHandler env s r N).world.body =
        s.body ++ String.join (writesOf (handlerTrace env s r N))) := by
  have hw : writesOf (handlerTrace env s r N) =
      (readings env s.reads N).map fun p => "data: " ++ p ++ "\n\n" := by
    rw [writesOf_handlerTrace env s r N h, readings, List.map_map]
    rfl
  have hnl : ∀ p ∈ readings env s.reads N, '\n' ∉ p.data := by
    intro p hmem
    rw [readings, List.mem_map] at hmem
    obtain ⟨i, hi, rfl⟩ := hmem
    exact (hp i (List.mem_range.mp hi)).2
  refine ⟨by rw [hw], ?_, by simp [readings], ?_, ?_, ?_⟩
  · rw [hw]
    exact splitLines_stream _ hnl
  · intro p hmem
    rw [readings, List.mem_map] at hmem
    obtain ⟨i, hi, rfl⟩ := hmem
    exact (hp i (List.mem_range.mp hi)).1
  · rw [hw]
    exact decodeStream_stream _ hnl
  · intro hok
    rw [writesOf_handlerTrace env s r N h, sseHandler_flusher env s r N h, Outcome.world]
    exact forLoop_body env N _ hok

/-- C6, at a concrete input: three iterations with a clock that shows `0`, `1`, `2`. -/
theorem sseHandler_body_events_witness :
    String.join (writesOf (handlerTrace liveConn (World.fresh true) getSse 3)) =
      String.join ((readings liveConn 0 3).map fun p => "data: " ++ p ++ "\n\n") ∧
    decodeStream (String.join (writesOf (handlerTrace liveConn (World.fresh true) getSse 3))) =
      some (readings liveConn 0 3) ∧
    readings liveConn 0 3 = ["0", "1", "2"] :=
  have t := sseHandler_body_events liveConn (World.fresh true) getSse 3 rfl (by decide)
  ⟨t.1, t.2.2.2.2.1, by decide⟩


section RouteLemmas

theorem main_mux (listenErr : Option String) :
    (main listenErr).mux = ⟨[("/sse", HandlerFunc.sseHandler)]⟩ := by
  cases listenErr <;> rfl

theorem decodeEscapes_other (c : Char) (t : List Char) (hc : c ≠ '%') :
    decodeEscapes (c :: t) =
      match decodeEscapes t with
      | some d => some (c :: d)
      | none => none := by
  match t with
  | [] => simp [decodeEscapes, hc]
  | [a] => simp [decodeEscapes, hc]
  | a :: b :: t' => simp [decodeEscapes, hc]

theorem decodeEscapes_escape (a b : Char) (t : List Char) :
    decodeEscapes ('%' :: a :: b :: t) =
      match unhex a, unhex b, decodeEscapes t with
      | some x, some y, some d => some (Char.ofNat (16 * x + y) :: d)
      | _, _, _ => none := by
  simp [decodeEscapes]

theorem decodeEscapes_short (t : List Char) (ht : t.length < 2) :
    decodeEscapes ('%' :: t) = none := by
  match t, ht with
  | [], _ => simp [decodeEscapes]
  | [a], _ => simp [decodeEscapes]
  | a :: b :: t', ht => exact absurd ht (by simp)

theorem pathUnescape_slash (t : List Char) :
    pathUnescape ('/' :: t) = '/' :: pathUnescape t := by
  rw [pathUnescape, pathUnescape, decodeEscapes_other _ _ (by decide)]
  cases decodeEscapes t <;> rfl

/-- Unescaping keeps every slash of the text. -/
theorem slash_mem_decodeEscapes (n : Nat) :
    ∀ (l d : List Char), l.length ≤ n → decodeEscapes l = some d → '/' ∈ l → '/' ∈ d := by
  induction n with
  | zero =>
    intro l d hl _ hmem
    have : l = [] := List.length_eq_zero.mp (Nat.le_zero.mp hl)
    rw [this] at hmem
    exact absurd hmem (List.not_mem_nil _)
  | succ n ih =>
    intro l d hl hdec hmem
    match l, hl, hdec, hmem with
    | [], _, _, hmem => exact absurd hmem (List.not_mem_nil _)
    | c :: t, hl, hdec, hmem =>
      have hlt : t.length ≤ n := by simpa using hl
      by_cases hc : c = '%'
      · subst hc
        match t, hlt, hdec, hmem with
        | [], _, hdec, _ =>
          rw [decodeEscapes_short [] (by simp)] at hdec
          exact absurd hdec (by simp)
        | [a], _, hdec, _ =>
          rw [decodeEscapes_short [a] (by simp)] at hdec
          exact absurd hdec (by simp)
        | a :: b :: t', hlt, hdec, hmem =>
          rw [decodeEscapes_escape] at hdec
          cases hx : unhex a with
          | none => rw [hx] at hdec; simp at hdec
          | some x =>
            cases hy : unhex b with
            | none => rw [hx, hy] at hdec; simp at hdec
            | some y =>
              cases hd : decodeEscapes t' with
              | none => rw [hx, hy, hd] at hdec; simp at hdec
              | some d' =>
                rw [hx, hy, hd] at hdec
                simp only [Option.some.injEq] at hdec
                have ha : a ≠ '/' := by
                  intro e; rw [e, show unhex '/' = none by decide] at hx; exact absurd hx (by simp)
                have hb : b ≠ '/' := by
                  intro e; rw [e, show unhex '/' = none by decide] at hy; exact absurd hy (by simp)
                have hmem' : '/' ∈ t' := by
                  simp only [List.mem_cons] at hmem
                  rcases hmem with h | h | h | h
                  · exact absurd h (by decide)
                  · exact absurd h.symm ha
                  · exact absurd h.symm hb
                  · exact h
                have := ih t' d' (by simp at hlt; omega) hd hmem'
                rw [← hdec]
                exact List.mem_cons_of_mem _ this
      · rw [decodeEscapes_other c t hc] at hdec
        cases hd : decodeEscapes t with
        | none => rw [hd] at hdec; simp at hdec
        | some d' =>
          rw [hd] at hdec
          simp only [Option.some.injEq] at hdec
          rw [← hdec]
          rcases List.mem_cons.mp hmem with h | h
          · rw [← h]; exact List.mem_cons_self _ _
          · exact List.mem_cons_of_mem _ (ih t d' hlt hd h)

theorem splitSlash_ne_nil (l : List Char) : splitSlash l ≠ [] := by
  cases l with
  | nil => simp [splitSlash]
  | cons c t =>
    rw [splitSlash]
    split
    · simp
    · split <;> simp

theorem splitSlash_no_slash (l : List Char) (h : '/' ∉ l) : splitSlash l = [l] := by
  induction l with
  | nil => rfl
  | cons c t ih =>
    have hc : c ≠ '/' := fun e => h (e ▸ List.mem_cons_self _ _)
    have ht : '/' ∉ t := fun e => h (List.mem_cons_of_mem _ e)
    rw [splitSlash, if_neg hc, ih ht]

theorem splitSlash_singleton (l seg : List Char) (h : splitSlash l = [seg]) :
    '/' ∉ l ∧ l = seg := by
  induction l generalizing seg with
  | nil =>
    simp [splitSlash] at h
    exact ⟨List.not_mem_nil _, h.symm⟩
  | cons c t ih =>
    by_cases hc : c = '/'
    · rw [splitSlash, if_pos hc] at h
      simp only [List.cons.injEq] at h
      exact absurd h.2 (splitSlash_ne_nil t)
    · rw [splitSlash, if_neg hc] at h
      cases hs : splitSlash t with
      | nil => exact absurd hs (splitSlash_ne_nil t)
      | cons e es =>
        rw [hs] at h
        simp only [List.cons.injEq] at h
        obtain ⟨h1, h2⟩ := h
        rw [h2] at hs
        have := ih e hs
        refine ⟨?_, ?_⟩
        · intro hmem
          rcases List.mem_cons.mp hmem with h' | h'
          · exact hc h'.symm
          · exact this.1 h'
        · rw [this.2, h1]

/-- A rooted path of one plain element is in canonical form. -/
theorem cleanPath_single (rest : List Char) (hs : '/' ∉ rest) (h0 : rest ≠ [])
    (h1 : rest ≠ ['.']) (h2 : rest ≠ ['.', '.']) :
    cleanPath ⟨'/' :: rest⟩ = ⟨'/' :: rest⟩ := by
  have hclean : pathClean ('/' :: rest) = '/' :: rest := by
    rw [pathClean, splitSlash, if_pos rfl, splitSlash_no_slash rest hs]
    simp [cleanElems, h0, h1, h2, List.intercalate]
  have hlast : ('/' :: rest).getLast? ≠ some '/' := by
    obtain ⟨c, t, rfl⟩ := List.exists_cons_of_ne_nil h0
    rw [List.getLast?_cons_cons]
    intro e
    exact hs (List.mem_of_getLast?_eq_some e)
  have hne : (⟨'/' :: rest⟩ : String) ≠ "" := by
    intro e
    have := congrArg String.data e
    simp at this
  rw [cleanPath, if_neg hne]
  simp only [List.head?_cons, ne_eq, not_true_eq_false, if_false, hclean]
  rw [if_neg (fun hx => hlast hx.1)]

end RouteLemmas

section DispatchLemmas

theorem lookup_sse (path : String) :
    (ServeMux.mk [("/sse", HandlerFunc.sseHandler)]).lookup path =
      if pathSegments path.data = [['s', 's', 'e']] then some HandlerFunc.sseHandler
      else none := by
  have hp : patternSegments "/sse".data = [['s', 's', 'e']] := by decide
  by_cases h : pathSegments path.data = [['s', 's', 'e']]
  · simp [ServeMux.lookup, List.find?_cons, hp, h]
  · have h' : ¬ [['s', 's', 'e']] = pathSegments path.data := fun e => h e.symm
    simp [ServeMux.lookup, List.find?_cons, hp, h, h']

/-- A path that starts with a slash and unescapes to `/sse` is clean and has
the single segment `sse`. -/
theorem sse_path_written (rest : List Char)
    (h : pathUnescape ('/' :: rest) = ['/', 's', 's', 'e']) :
    cleanPath ⟨'/' :: rest⟩ = ⟨'/' :: rest⟩ ∧ pathSegments ('/' :: rest) = [['s', 's', 'e']] := by
  rw [pathUnescape_slash] at h
  have hrest : pathUnescape rest = ['s', 's', 'e'] := by simpa using h
  have hslash : '/' ∉ rest := by
    intro hmem
    cases hd : decodeEscapes rest with
    | none =>
      rw [pathUnescape, hd] at hrest
      rw [show rest = ['s', 's', 'e'] from hrest] at hmem
      exact absurd hmem (by decide)
    | some d =>
      rw [pathUnescape, hd] at hrest
      have := slash_mem_decodeEscapes rest.length rest d (Nat.le_refl _) hd hmem
      rw [show d = ['s', 's', 'e'] from hrest] at this
      exact absurd this (by decide)
  have h0 : rest ≠ [] := by
    intro e; rw [e] at hrest; exact absurd hrest (by decide)
  have h1 : rest ≠ ['.'] := by
    intro e; rw [e] at hrest; exact absurd hrest (by decide)
  have h2 : rest ≠ ['.', '.'] := by
    intro e; rw [e] at hrest; exact absurd hrest (by decide)
  refine ⟨cleanPath_single rest hslash h0 h1 h2, ?_⟩
  show (splitSlash rest).map pathUnescape = _
  rw [splitSlash_no_slash rest hslash, List.map_singleton, hrest]

/-- A well-formed path with the single segment `sse` unescapes to `/sse`. -/
theorem sse_path_read (r : Request) (hwf : r.WellFormed)
    (h : pathSegments r.escapedPath.data = [['s', 's', 'e']]) : r.path = "/sse" := by
  obtain ⟨method, ⟨data⟩, query, header, body, major, minor⟩ := r
  simp only [Request.WellFormed, Request.path] at hwf ⊢
  simp only at h
  match data, h, hwf with
  | [], h, _ => exact absurd h (by simp [pathSegments])
  | c :: p, h, hwf =>
    have hmap : (splitSlash p).map pathUnescape = [['s', 's', 'e']] := h
    obtain ⟨seg, hseg, hun⟩ : ∃ seg, splitSlash p = [seg] ∧ pathUnescape seg = ['s', 's', 'e'] := by
      match hs : splitSlash p, hmap with
      | [seg], hmap => exact ⟨seg, rfl, by simpa using hmap⟩
      | [], hmap => simp at hmap
      | _ :: _ :: _, hmap => simp at hmap
    have hp : p = seg := (splitSlash_singleton p seg hseg).2
    rw [← hp] at hun
    have hc : c = '/' := by
      rcases hwf with hw | hw | hw
      · have hd := congrArg String.data hw
        simp only at hd
        have hp0 : p = [] := by
          have : (c :: p) = ['*'] := hd
          simpa using (List.cons.inj this).2
        rw [hp0] at hun
        exact absurd hun (by decide)
      · have hd := congrArg String.data hw
        exact absurd hd (by simp)
      · simpa using hw
    rw [hc, pathUnescape_slash, hun]

end DispatchLemmas

section ReplyLemmas

theorem sse_path_clean (r : Request) (hwf : r.WellFormed) (hp : r.path = "/sse") :
    cleanPath r.escapedPath = r.escapedPath ∧
    pathSegments r.escapedPath.data = [['s', 's', 'e']] ∧ r.escapedPath ≠ "*" := by
  obtain ⟨method, ⟨data⟩, query, header, body, major, minor⟩ := r
  simp only [Request.WellFormed, Request.path] at hwf hp ⊢
  have hun : pathUnescape data = ['/', 's', 's', 'e'] := congrArg String.data hp
  match data, hwf, hun with
  | [], _, hun => exact absurd hun (by decide)
  | c :: rest, hwf, hun =>
    have hc : c = '/' := by
      rcases hwf with hw | hw | hw
      · have hd : c :: rest = ['*'] := congrArg String.data hw
        rw [hd] at hun
        exact absurd hun (by decide)
      · have hd := congrArg String.data hw
        exact absurd hd (by simp)
      · simpa using hw
    subst hc
    have := sse_path_written rest hun
    refine ⟨this.1, this.2, ?_⟩
    intro e
    have hd : '/' :: rest = ['*'] := congrArg String.data e
    exact absurd (List.cons.inj hd).1 (by decide)

theorem Error_trace (env : Env) (s : World) (msg : String) (code : Nat) :
    (Error env s msg code).trace =
      s.trace ++ [.setHeader "Content-Type" "text/plain; charset=utf-8",
       .setHeader "X-Content-Type-Options" "nosniff",
       .writeHeader code,
       .write (sprintln [msg])] := by
  show s.trace ++ [_] ++ [_] ++ [_] ++ [_] = _
  simp

theorem anchor_not_data (a b c d : String) :
    Effect.isDataWrite (.write (sprintln ["<a href=\"" ++ a ++ b ++ c ++ d])) = false := by
  have : sprintln ["<a href=\"" ++ a ++ b ++ c ++ d] = "<a href=\"" ++ a ++ b ++ c ++ d ++ "\n" := rfl
  rw [this]
  simp [Effect.isDataWrite, String.data_append, List.isPrefixOf]

/-- The calls of a redirect reply: the `Location` header first, then calls
that are no `data:` write, no flush and no sleep. -/
theorem Redirect_trace (lib : Library) (env : Env) (s : World) (r : Request) (url : String)
    (code : Nat) :
    ∃ loc added, (Redirect lib env s r url code).trace =
        s.trace ++ (.setHeader "Location" loc :: added) ∧
      added.countP Effect.isDataWrite = 0 ∧ added.countP Effect.isFlush = 0 ∧
      added.countP Effect.isSleep = 0 := by
  refine ⟨lib.hexEscapeNonASCII (lib.resolveURL r url), ?_⟩
  cases h1 : (!(s.header.any fun kv => kv.1 == "Content-Type") &&
      (r.method == "GET" || r.method == "HEAD"))
  · cases h2 : (!(s.header.any fun kv => kv.1 == "Content-Type") && r.method == "GET")
    · refine ⟨[.writeHeader code], ?_, rfl, rfl, rfl⟩
      simp only [Redirect, h1, h2]
      show s.trace ++ [_] ++ [_] = _
      simp
    · refine ⟨[.writeHeader code, .write (sprintln ["<a href=\"" ++
        lib.htmlEscape (lib.resolveURL r url) ++ "\">" ++ lib.StatusText code ++ "</a>.\n"])],
        ?_, ?_, rfl, rfl⟩
      · simp only [Redirect, h1, h2]
        show s.trace ++ [_] ++ [_] ++ [_] = _
        simp
      · rw [List.countP_cons, List.countP_cons, anchor_not_data]
        rfl
  · cases h2 : (!(s.header.any fun kv => kv.1 == "Content-Type") && r.method == "GET")
    · refine ⟨[.setHeader "Content-Type" "text/html; charset=utf-8", .writeHeader code],
        ?_, rfl, rfl, rfl⟩
      simp only [Redirect, h1, h2]
      show s.trace ++ [_] ++ [_] ++ [_] = _
      simp
    · refine ⟨[.setHeader "Content-Type" "text/html; charset=utf-8", .writeHeader code,
        .write (sprintln ["<a href=\"" ++
        lib.htmlEscape (lib.resolveURL r url) ++ "\">" ++ lib.StatusText code ++ "</a>.\n"])],
        ?_, ?_, rfl, rfl⟩
      · simp only [Redirect, h1, h2]
        show s.trace ++ [_] ++ [_] ++ [_] ++ [_] = _
        simp
      · rw [List.countP_cons, List.countP_cons, List.countP_cons, anchor_not_data]
        rfl

theorem Redirect_status (lib : Library) (env : Env) (s : World) (r : Request) (url : String)
    (code : Nat) (hs : s.status = none) :
    (Redirect lib env s r url code).status = some code := by
  cases h1 : (!(s.header.any fun kv => kv.1 == "Content-Type") &&
      (r.method == "GET" || r.method == "HEAD")) <;>
  cases h2 : (!(s.header.any fun kv => kv.1 == "Content-Type") && r.method == "GET") <;>
  simp [Redirect, h1, h2, World.SetHeader, World.WriteHeader, Fprintln, World.Write, hs]

theorem Redirect_ne_NotFound (lib : Library) (env : Env) (s : World) (r : Request)
    (url : String) (code : Nat) :
    Redirect lib env s r url code ≠ NotFound env s := by
  intro e
  obtain ⟨loc, added, htr, _⟩ := Redirect_trace lib env s r url code
  rw [e, NotFound, Error_trace] at htr
  have := List.append_cancel_left htr
  simp at this

theorem globalOptionsHandler_trace (s : World) :
    (globalOptionsHandler s).trace.drop s.trace.length =
      [.setHeader "Content-Length" "0", .writeHeader StatusOK] := by
  show (s.trace ++ [_] ++ [_]).drop s.trace.length = _
  simp

theorem badRequest_trace (s : World) (b : Bool) (k v : String) (c : Nat) :
    ((if b = true then s.SetHeader k v else s).WriteHeader c).trace.drop s.trace.length =
      if b = true then [.setHeader k v, .writeHeader c] else [.writeHeader c] := by
  cases b
  · show (s.trace ++ [_]).drop s.trace.length = _
    simp
  · show (s.trace ++ [_] ++ [_]).drop s.trace.length = _
    simp

end ReplyLemmas

/-! ## Routing -/

/-- C10, refuted as stated: the request `GET //sse` is for a path other than
`/sse`; the multiplexer selects for it a redirect to `/sse`, and its reply is
not the not-found reply and does not have status 404. -/
theorem main_routes_counterexample :
    getDoubleSlash.path ≠ "/sse" ∧
    (main none).mux.Handler getDoubleSlash = .redirect "/sse" "" ∧
    serverHandler sampleLib (main none).mux liveConn (World.fresh true) getDoubleSlash 1 ≠
      .returned (NotFound liveConn (World.fresh true)) ∧
    (serverHandler sampleLib (main none).mux liveConn (World.fresh true) getDoubleSlash
      1).world.status ≠ some StatusNotFound := by
  decide

/-- C10, as the code behaves: the only route `main` registers is `/sse`, bound
to `sseHandler`.  A request whose path is `/sse` is handled by `sseHandler`.
A request for any other path is never routed to `sseHandler`: its handling
returns without a `data:` write, a flush or a sleep.  When the path as written
in the request is in canonical form, or the method is `CONNECT`, the reply is
the default not-found reply; otherwise the multiplexer selects a redirect to
the canonical path, and the reply is that redirect, with the redirect status
of the library, and not the not-found reply.  (The request target `*`, which
names no path, is answered apart.) -/
theorem main_routes (lib : Library) (listenErr : Option String) (env : Env) (s : World)
    (r : Request) (fuel : Nat) (hwf : r.WellFormed) :
    (main listenErr).mux.patterns = [("/sse", HandlerFunc.sseHandler)] ∧
    (r.path = "/sse" →
      (main listenErr).mux.Handler r = .handler .sseHandler ∧
      serverHandler lib (main listenErr).mux env s r fuel = sseHandler env s r fuel) ∧
    (r.path ≠ "/sse" →
      (main listenErr).mux.Handler r ≠ .handler .sseHandler ∧
      (∃ s', serverHandler lib (main listenErr).mux env s r fuel = .returned s' ∧
        (s'.trace.drop s.trace.length).countP Effect.isDataWrite = 0 ∧
        (s'.trace.drop s.trace.length).countP Effect.isFlush = 0 ∧
        (s'.trace.drop s.trace.length).countP Effect.isSleep = 0) ∧
      (r.escapedPath ≠ "*" →
        (r.method = "CONNECT" ∨ cleanPath r.escapedPath = r.escapedPath) →
        serverHandler lib (main listenErr).mux env s r fuel = .returned (NotFound env s)) ∧
      (r.escapedPath ≠ "*" → r.method ≠ "CONNECT" → cleanPath r.escapedPath ≠ r.escapedPath →
        (main listenErr).mux.Handler r = .redirect (cleanPath r.escapedPath) r.query ∧
        serverHandler lib (main listenErr).mux env s r fuel =
          .returned (Redirect lib env s r (lib.urlString (cleanPath r.escapedPath) r.query)
            lib.redirectCode) ∧
        Redirect lib env s r (lib.urlString (cleanPath r.escapedPath) r.query)
          lib.redirectCode ≠ NotFound env s ∧
        (s.status = none →
          (Redirect lib env s r (lib.urlString (cleanPath r.escapedPath) r.query)
            lib.redirectCode).status = some lib.redirectCode))) := by
  rw [main_mux]
  have hserver : r.escapedPath ≠ "*" →
      serverHandler lib (ServeMux.mk [("/sse", HandlerFunc.sseHandler)]) env s r fuel =
        match (ServeMux.mk [("/sse", HandlerFunc.sseHandler)]).Handler r with
        | .handler .sseHandler => sseHandler env s r fuel
        | .redirect path query =>
          .returned (Redirect lib env s r (lib.urlString path query) lib.redirectCode)
        | .notFound => .returned (NotFound env s) := by
    intro hstar
    rw [serverHandler, if_neg (fun hx => hstar hx.1), ServeMux.ServeHTTP, if_neg hstar]
  refine ⟨rfl, ?_, ?_⟩
  · intro hp
    obtain ⟨hc, hseg, hstar⟩ := sse_path_clean r hwf hp
    have hh : (ServeMux.mk [("/sse", HandlerFunc.sseHandler)]).Handler r
        = .handler .sseHandler := by
      rw [ServeMux.Handler, if_neg (fun hx => hx.2 hc), lookup_sse, if_pos hseg]
    refine ⟨hh, ?_⟩
    rw [hserver hstar, hh]
  · intro hp
    have hseg : pathSegments r.escapedPath.data ≠ [['s', 's', 'e']] :=
      fun e => hp (sse_path_read r hwf e)
    have hroute : (ServeMux.mk [("/sse", HandlerFunc.sseHandler)]).Handler r =
        if r.method ≠ "CONNECT" ∧ cleanPath r.escapedPath ≠ r.escapedPath then
          .redirect (cleanPath r.escapedPath) r.query
        else .notFound := by
      rw [ServeMux.Handler, lookup_sse, if_neg hseg]
    have hnf : r.escapedPath ≠ "*" →
        (r.method = "CONNECT" ∨ cleanPath r.escapedPath = r.escapedPath) →
        serverHandler lib (ServeMux.mk [("/sse", HandlerFunc.sseHandler)]) env s r fuel =
          .returned (NotFound env s) := by
      intro hstar hclean
      have hcond : ¬ (r.method ≠ "CONNECT" ∧ cleanPath r.escapedPath ≠ r.escapedPath) := by
        rintro ⟨h1, h2⟩
        rcases hclean with h | h
        · exact h1 h
        · exact h2 h
      rw [hserver hstar, hroute, if_neg hcond]
    have hrd : r.escapedPath ≠ "*" → r.method ≠ "CONNECT" →
        cleanPath r.escapedPath ≠ r.escapedPath →
        serverHandler lib (ServeMux.mk [("/sse", HandlerFunc.sseHandler)]) env s r fuel =
          .returned (Redirect lib env s r (lib.urlString (cleanPath r.escapedPath) r.query)
            lib.redirectCode) := by
      intro hstar h1 h2
      rw [hserver hstar, hroute, if_pos ⟨h1, h2⟩]
    refine ⟨?_, ?_, hnf, ?_⟩
    · rw [hroute]
      split <;> simp
    · by_cases hstar : r.escapedPath = "*"
      · by_cases hopt : r.method = "OPTIONS"
        · refine ⟨globalOptionsHandler s, ?_, ?_⟩
          · rw [serverHandler, if_pos ⟨hstar, hopt⟩]
          · rw [globalOptionsHandler_trace]
            exact ⟨rfl, rfl, rfl⟩
        · refine ⟨(if r.ProtoAtLeast 1 1 = true then s.SetHeader "Connection" "close"
            else s).WriteHeader StatusBadRequest, ?_, ?_⟩
          · rw [serverHandler, if_neg (fun hx => hopt hx.2), ServeMux.ServeHTTP, if_pos hstar]
          · rw [badRequest_trace]
            split <;> exact ⟨rfl, rfl, rfl⟩
      · by_cases hcond : r.method ≠ "CONNECT" ∧ cleanPath r.escapedPath ≠ r.escapedPath
        · refine ⟨_, hrd hstar hcond.1 hcond.2, ?_⟩
          obtain ⟨loc, added, htr, hd, hf, hsl⟩ := Redirect_trace lib env s r
            (lib.urlString (cleanPath r.escapedPath) r.query) lib.redirectCode
          rw [htr, List.drop_left, List.countP_cons, List.countP_cons, List.countP_cons,
            hd, hf, hsl]
          exact ⟨rfl, rfl, rfl⟩
        · have hclean : r.method = "CONNECT" ∨ cleanPath r.escapedPath = r.escapedPath := by
            by_cases h1 : r.method = "CONNECT"
            · exact Or.inl h1
            · by_cases h2 : cleanPath r.escapedPath = r.escapedPath
              · exact Or.inr h2
              · exact absurd ⟨h1, h2⟩ hcond
          refine ⟨_, hnf hstar hclean, ?_⟩
          rw [NotFound, Error_trace, List.drop_left]
          refine ⟨?_, rfl, rfl⟩
          decide
    · intro hstar h1 h2
      refine ⟨?_, hrd hstar h1 h2, Redirect_ne_NotFound _ _ _ _ _ _, Redirect_status _ _ _ _ _ _⟩
      rw [hroute, if_pos ⟨h1, h2⟩]

/-- C10 as amended, at concrete inputs: `GET /sse` and `GET /ss%65` reach
`sseHandler`, which is in its loop after two iterations, and `GET /other` gets
the not-found reply. -/
theorem main_routes_witness :
    serverHandler sampleLib (main none).mux liveConn (World.fresh true) getSse 2 =
      sseHandler liveConn (World.fresh true) getSse 2 ∧
    serverHandler sampleLib (main none).mux liveConn (World.fresh true) getEscaped 2 =
      sseHandler liveConn (World.fresh true) getEscaped 2 ∧
    serverHandler sampleLib (main none).mux liveConn (World.fresh true) getOther 2 =
      .returned (NotFound liveConn (World.fresh true)) :=
  ⟨((main_routes sampleLib none liveConn (World.fresh true) getSse 2
      (Or.inr (Or.inr rfl))).2.1 (by decide)).2,
   ((main_routes sampleLib none liveConn (World.fresh true) getEscaped 2
      (Or.inr (Or.inr rfl))).2.1 (by decide)).2,
   (main_routes sampleLib none liveConn (World.fresh true) getOther 2
      (Or.inr (Or.inr rfl))).2.2 (by decide) |>.2.2.1 (by decide) (Or.inr (by decide))⟩

end SSE
